import Mathlib

/-!
# Verification of the spine-segmentation path-planning core

Shallow embedding of `src/xyz_pathplanning/seg_to_path.py` (the wavefront
path-planning engine described by the specification).  Scalar array values
are modelled by `ℚ` (exact arithmetic in place of IEEE doubles); the
Euclidean distance transform, whose values are square roots of natural
numbers, is modelled in `ℝ` on top of a computable squared-distance field.
Fallible code (numpy `IndexError`, numpy `ValueError` on empty reductions,
exceptions from the external `skfmm` solver) is embedded with `Except`.
-/

namespace SegToPath

/-- Voxel index of a dense 3-D array: `(i, j, k)` with `0 ≤ i < n₁` etc. -/
abbrev Idx : Type := ℕ × ℕ × ℕ

/-- A possibly signed coordinate triple, as supplied by a caller (numpy
accepts negative indices, which wrap). -/
abbrev Coord : Type := ℤ × ℤ × ℤ

/-- Failure taxonomy.  `IndexError` and `ValueError` are the untyped numpy
exceptions the code can actually raise; `FMMError` stands for an exception
raised by the external `skfmm.travel_time` call (caught by the code).  The
remaining constructors are the typed errors named by the specification;
they are listed so that claims about them can be stated, and the proofs
show the code never produces them. -/
inductive PlanError : Type where
  | IndexError : PlanError
  | ValueError : PlanError
  | FMMError : PlanError
  | EmptyObstacleSet : PlanError
  | SourceOutOfBounds : PlanError
  | SourceInObstacle : PlanError
  | TargetUnreachable : PlanError
deriving DecidableEq

/-- `Except.isOkB`: whether a result is a success, as a `Bool` (decides the
outer constructor only, never forcing the payload). -/
def exceptIsOk {ε α : Type} : Except ε α → Bool
  | .ok _ => true
  | .error _ => false

/-- Whether a fallible computation returned a genuine payload
(`.ok (some _)`), deciding the outer constructors only. -/
def exceptOkSome {ε α : Type} : Except ε (Option α) → Bool
  | .ok (some _) => true
  | _ => false

/-- All voxel indices of a grid of the given shape, in row-major order. -/
def allCoords (shape : Idx) : List Idx :=
  (List.range shape.1).flatMap (fun i =>
    (List.range shape.2.1).flatMap (fun j =>
      (List.range shape.2.2).map (fun k => (i, j, k))))

/-- A volumetric grid: a shape and a scalar value per voxel (the
segmentation label field loaded from NIfTI; any value `> 0` is bone). -/
structure Grid : Type where
  shape : Idx
  val : Idx → ℚ

/-! ## Clearance field (`compute_distance_transform`, lines 115–128)

The code builds `bone_mask = (segmentation > 0)` and calls scipy's
`distance_transform_edt(bone_mask == 0)`: each voxel's value is the exact
Euclidean distance to the nearest voxel with `segmentation > 0`.  The
squared distance is a natural number and is embedded computably; the field
itself is its real square root. -/

/-- The obstacle (bone) voxels: `bone_mask` of the code. -/
def obstacleCoords (g : Grid) : List Idx :=
  (allCoords g.shape).filter (fun v => decide (0 < g.val v))

/-- Squared Euclidean distance between two voxel indices. -/
def sqDist (v w : Idx) : ℕ :=
  ((v.1 : ℤ) - w.1).natAbs ^ 2 + ((v.2.1 : ℤ) - w.2.1).natAbs ^ 2 +
    ((v.2.2 : ℤ) - w.2.2).natAbs ^ 2

/-- Initialization value of the distance scan, an upper bound for every
squared distance realisable inside the grid.  scipy's output on an input
with no background voxel (no obstacle) is not specified by its
documentation beyond being a returned array; it is modelled by this
bound.  No settled claim depends on the numeric value. -/
def edtUpperBound (shape : Idx) : ℕ :=
  shape.1 ^ 2 + shape.2.1 ^ 2 + shape.2.2 ^ 2

/-- Squared distance-transform field: minimum squared distance to an
obstacle voxel. -/
def distance_transform_sq (g : Grid) (v : Idx) : ℕ :=
  (obstacleCoords g).foldr (fun w acc => min (sqDist v w) acc)
    (edtUpperBound g.shape)

/-- The clearance field returned by `compute_distance_transform`:
Euclidean (real) distance to the nearest bone voxel. -/
noncomputable def distance_map (g : Grid) : Idx → ℝ :=
  fun v => Real.sqrt (distance_transform_sq g v)

/-- `compute_distance_transform` viewed as a fallible computation.  The
Python body (mask, `distance_transform_edt`, return) contains no raise, no
try, and no emptiness check, and scipy returns an array for every input
mask, so the embedding is unconditionally successful. -/
noncomputable def compute_distance_transformE (g : Grid) :
    Except PlanError (Idx → ℝ) :=
  .ok (distance_map g)

/-! ## Traversal-cost field (`create_speed_map`, lines 131–148)

`speed_map = distance_map + margin`, divided by its own maximum, then
`np.clip(·, 0.1, 1.0)`.  Fields are embedded as functions on `Idx`
together with the shape over which numpy's global `max()` ranges. -/

/-- `np.clip x lo hi = np.minimum(hi, np.maximum(x, lo))`. -/
def npClip (x lo hi : ℚ) : ℚ := min hi (max x lo)

/-- numpy `array.max()` over a list of entries (nonempty in every use;
the `[]` case is never exercised by the code paths modelled). -/
def npMax : List ℚ → ℚ
  | [] => 0
  | x :: xs => xs.foldl max x

/-- Global maximum of a field over a grid shape. -/
def fieldMax (shape : Idx) (f : Idx → ℚ) : ℚ :=
  npMax ((allCoords shape).map f)

/-- `create_speed_map(distance_map, safety_margin)`:
add the margin, normalize by the global maximum, clip into `[0.1, 1.0]`. -/
def create_speed_map (shape : Idx) (d : Idx → ℚ) (margin : ℚ) : Idx → ℚ :=
  fun v =>
    npClip ((d v + margin) / fieldMax shape (fun w => d w + margin))
      (1 / 10) 1

/-! ## Arrival-time solve (`plan_path_fmm`, lines 151–175)

`phi = np.ones_like(speed_map); phi[start_point] = -1`, then
`skfmm.travel_time(phi, speed_map)` inside a `try/except` that turns any
solver exception into a `(None, None)` return.  The numpy assignment
`phi[start_point] = -1` is the only place a source coordinate is touched:
an index in `[-n, -1]` wraps (numpy semantics), an index outside
`[-n, n)` raises an uncaught `IndexError`.  There is no other source
validation in the code. -/

/-- numpy integer indexing of one axis of length `n`: indices in
`[0, n)` are used as-is, indices in `[-n, 0)` wrap to `i + n`, anything
else raises `IndexError`. -/
def npIndex (n : ℕ) (i : ℤ) : Except PlanError ℕ :=
  if 0 ≤ i ∧ i < (n : ℤ) then .ok i.toNat
  else if -(n : ℤ) ≤ i ∧ i < 0 then .ok (i + n).toNat
  else .error .IndexError

/-- numpy indexing with a coordinate triple. -/
def npIndex3 (shape : Idx) (p : Coord) : Except PlanError Idx := do
  let i ← npIndex shape.1 p.1
  let j ← npIndex shape.2.1 p.2.1
  let k ← npIndex shape.2.2 p.2.2
  pure (i, j, k)

/-- The seed field `phi`: `-1` at the (wrapped) source voxel, `1`
elsewhere. -/
def phiOf (w : Idx) : Idx → ℚ :=
  fun v => if v = w then -1 else 1

/-- In-bounds 6-neighbourhood of a voxel. -/
def neighbors (shape : Idx) (v : Idx) : List Idx :=
  (if v.1 + 1 < shape.1 then [(v.1 + 1, v.2.1, v.2.2)] else []) ++
  (if 0 < v.1 then [(v.1 - 1, v.2.1, v.2.2)] else []) ++
  (if v.2.1 + 1 < shape.2.1 then [(v.1, v.2.1 + 1, v.2.2)] else []) ++
  (if 0 < v.2.1 then [(v.1, v.2.1 - 1, v.2.2)] else []) ++
  (if v.2.2 + 1 < shape.2.2 then [(v.1, v.2.1, v.2.2 + 1)] else []) ++
  (if 0 < v.2.2 then [(v.1, v.2.1, v.2.2 - 1)] else [])

/-- One relaxation sweep of the upwind arrival-time iteration. -/
def fmmRelax (shape : Idx) (speed : Idx → ℚ) (T : Idx → ℚ) : Idx → ℚ :=
  fun v =>
    ((neighbors shape v).map (fun u => T u + 1 / speed v)).foldr min (T v)

/-- Initial arrival-time field: `0` at the seed, large elsewhere. -/
def fmmInit (shape : Idx) (seed : Idx) : Idx → ℚ :=
  fun v => if v = seed then 0 else (edtUpperBound shape : ℚ) + 1

/-- Modelled from the scikit-fmm documentation: the numerical arrival
times produced by `skfmm.travel_time(phi, speed)` for a single seed voxel
(the solution of the Eikonal equation `|∇T|·speed = 1` with `T = 0` on the
zero contour of `phi`), approximated by a first-order upwind value
iteration over the voxel graph.  Every claim settled in this file depends
only on whether the solver returns a field, never on the field's numeric
entries. -/
def fmmValues (shape : Idx) (speed : Idx → ℚ) (seed : Idx) : Idx → ℚ :=
  (fmmRelax shape speed)^[shape.1 * shape.2.1 * shape.2.2]
    (fmmInit shape seed)

/-- Modelled from the scikit-fmm documentation: `skfmm.travel_time`
raises (ValueError) when `phi` contains no zero contour, i.e. when it
does not take both a negative and a positive value; otherwise it returns
the arrival-time field for the negative (seed) region. -/
def skfmm_travel_time (shape : Idx) (phi : Idx → ℚ) (speed : Idx → ℚ) :
    Except PlanError (Idx → ℚ) :=
  match (allCoords shape).find? (fun v => decide (phi v < 0)),
      (allCoords shape).any (fun v => decide (0 < phi v)) with
  | some s, true => .ok (fmmValues shape speed s)
  | _, _ => .error .FMMError

/-- Lines 164–175 of `plan_path_fmm`: seed-field setup and arrival-time
solve.  `.error .IndexError` models the uncaught numpy exception for a
source index outside `[-n, n)`; `.ok none` models the caught solver
exception (`return None, None`); `.ok (some T)` is a successful solve. -/
def fmm_solve (shape : Idx) (speed : Idx → ℚ) (start : Coord) :
    Except PlanError (Option (Idx → ℚ)) :=
  match npIndex3 shape start with
  | .error e => .error e
  | .ok w =>
    match skfmm_travel_time shape (phiOf w) speed with
    | .error _ => .ok none
    | .ok T => .ok (some T)

/-! ## Gradient-descent path extraction (lines 177–213)

Starting from the target, the code repeatedly steps `0.5` voxels against
the normalized finite-difference gradient of the arrival-time field,
for at most `max_iterations = 10000` iterations, stopping early on a
numerically zero gradient, on leaving the grid, or on coming within
distance `2.0` of the source.  The continuous position is a real triple;
`astype(int)` truncates toward zero. -/

/-- The code's `max_iterations = 10000`. -/
def max_iterations : ℕ := 10000

/-- Python/numpy `astype(int)`: truncation toward zero. -/
noncomputable def truncR (x : ℝ) : ℤ :=
  if 0 ≤ x then ⌊x⌋ else ⌈x⌉

/-- `np.clip(i, 0, n - 1)` on an integer index. -/
def clipIdx (n : ℕ) (i : ℤ) : ℕ :=
  (min ((n : ℤ) - 1) (max i 0)).toNat

/-- One axis of `np.gradient`: one-sided differences at the edges,
central differences in the interior (numpy requires the axis length to be
at least 2; the degenerate case is never exercised by the modelled
runs). -/
noncomputable def gradAxis (n : ℕ) (f : ℕ → ℝ) (i : ℕ) : ℝ :=
  if n ≤ 1 then 0
  else if i = 0 then f 1 - f 0
  else if i = n - 1 then f (n - 1) - f (n - 2)
  else (f (i + 1) - f (i - 1)) / 2

/-- `np.gradient(travel_time)` sampled at a voxel: the three axis
derivatives. -/
noncomputable def gradVec (shape : Idx) (T : Idx → ℝ) (pos : Idx) :
    ℝ × ℝ × ℝ :=
  (gradAxis shape.1 (fun a => T (a, pos.2.1, pos.2.2)) pos.1,
   gradAxis shape.2.1 (fun b => T (pos.1, b, pos.2.2)) pos.2.1,
   gradAxis shape.2.2 (fun c => T (pos.1, pos.2.1, c)) pos.2.2)

/-- `np.linalg.norm` of a real triple. -/
noncomputable def norm3 (v : ℝ × ℝ × ℝ) : ℝ :=
  Real.sqrt (v.1 ^ 2 + v.2.1 ^ 2 + v.2.2 ^ 2)

/-- The gradient-descent loop (lines 184–207), with the remaining
iteration budget as fuel.  `cur` is the continuous position, `acc` the
path accumulated so far (the code starts it at `[end_point]`). -/
noncomputable def trace_loop (shape : Idx) (T : Idx → ℝ) (sp : Coord) :
    ℕ → ℝ × ℝ × ℝ → List Coord → List Coord
  | 0, _, acc => acc
  | fuel + 1, cur, acc =>
    let pos : Idx := (clipIdx shape.1 (truncR cur.1),
      clipIdx shape.2.1 (truncR cur.2.1), clipIdx shape.2.2 (truncR cur.2.2))
    let gv := gradVec shape T pos
    if norm3 gv < 1 / 1000000 then acc
    else
      let nxt : ℝ × ℝ × ℝ :=
        (cur.1 - (1 / 2) * gv.1 / norm3 gv,
         cur.2.1 - (1 / 2) * gv.2.1 / norm3 gv,
         cur.2.2 - (1 / 2) * gv.2.2 / norm3 gv)
      if nxt.1 < 0 ∨ nxt.2.1 < 0 ∨ nxt.2.2 < 0 ∨ (shape.1 : ℝ) ≤ nxt.1 ∨
          (shape.2.1 : ℝ) ≤ nxt.2.1 ∨ (shape.2.2 : ℝ) ≤ nxt.2.2 then acc
      else
        let acc2 := acc ++ [(truncR nxt.1, truncR nxt.2.1, truncR nxt.2.2)]
        if norm3 (nxt.1 - (sp.1 : ℝ), nxt.2.1 - (sp.2.1 : ℝ),
            nxt.2.2 - (sp.2.2 : ℝ)) < 2 then acc2
        else trace_loop shape T sp fuel nxt acc2

/-- Path extraction: run the loop from the target with the full budget,
the path initialised to `[end_point]` and the continuous position to the
target coordinates. -/
noncomputable def plan_path_trace (shape : Idx) (T : Idx → ℝ)
    (sp ep : Coord) : List Coord :=
  trace_loop shape T sp max_iterations
    ((ep.1 : ℝ), (ep.2.1 : ℝ), (ep.2.2 : ℝ)) [ep]

/-- The full `plan_path_fmm`: solve, trace, and read
`total_time = travel_time[end_point]` (numpy indexing of the end point,
raising `IndexError` out of the function when it is outside `[-n, n)`).
`.ok none` is the `(None, None)` return after a caught solver
exception. -/
noncomputable def plan_path_fmm (shape : Idx) (speed : Idx → ℚ)
    (sp ep : Coord) : Except PlanError (Option (List Coord × ℝ)) :=
  match fmm_solve shape speed sp with
  | .error e => .error e
  | .ok none => .ok none
  | .ok (some T) =>
    let TR : Idx → ℝ := fun v => ((T v : ℚ) : ℝ)
    match npIndex3 shape ep with
    | .error e => .error e
    | .ok epw => .ok (some (plan_path_trace shape TR sp ep, TR epw))

/-! ## Safety metrics (`calculate_safety_metrics`, lines 216–244)

Samples the clearance field at each integer path point whose coordinates
all lie inside the grid (out-of-bounds points are skipped), then takes
`np.min` / `np.max` / `np.mean` of the collected samples — raising numpy's
`ValueError` when the sample list is empty — and reports
`safe = (min >= 3.0)`.  The definition is polymorphic in the scalar field
so the same code is used at `ℝ` (the pipeline) and at `ℚ` (decidable
witnesses). -/

/-- Bounds check of line 231: `all(0 <= p[i] < shape[i])`. -/
def inB (shape : Idx) (p : Coord) : Prop :=
  0 ≤ p.1 ∧ p.1 < (shape.1 : ℤ) ∧ 0 ≤ p.2.1 ∧ p.2.1 < (shape.2.1 : ℤ) ∧
    0 ≤ p.2.2 ∧ p.2.2 < (shape.2.2 : ℤ)

instance (shape : Idx) (p : Coord) : Decidable (inB shape p) := by
  unfold inB; infer_instance

/-- An in-bounds coordinate as a voxel index. -/
def toIdx (p : Coord) : Idx := (p.1.toNat, p.2.1.toNat, p.2.2.toNat)

/-- The clearance samples along a path (lines 228–232): the field value
at each in-bounds point; out-of-bounds points contribute nothing. -/
def sampleClearances {α : Type} (shape : Idx) (field : Idx → α)
    (path : List Coord) : List α :=
  path.filterMap (fun p => if inB shape p then some (field (toIdx p)) else none)

/-- The metrics dictionary built on lines 236–242. -/
structure SafetyMetrics (α : Type) : Type where
  min_clearance : α
  max_clearance : α
  avg_clearance : α
  path_length : ℕ
  safe : Bool

/-- `calculate_safety_metrics(path, distance_map)`.  numpy's `np.min`
raises `ValueError` on an empty array, so an all-outside path is a
failure; otherwise the statistics are over the in-bounds samples only
while `path_length` counts every path point. -/
def calculate_safety_metrics {α : Type} [LinearOrderedField α]
    (shape : Idx) (path : List Coord) (field : Idx → α) :
    Except PlanError (SafetyMetrics α) :=
  match sampleClearances shape field path with
  | [] => .error .ValueError
  | x :: xs =>
    .ok { min_clearance := xs.foldl min x
          max_clearance := xs.foldl max x
          avg_clearance := (x :: xs).sum / ((x :: xs).length : α)
          path_length := path.length
          safe := decide (3 ≤ xs.foldl min x) }

/-! ## Interactive planner (`InteractivePathPlanner`, lines 413–673)

The click-driven session.  The embedding keeps the data the click handler
reads (`segmentation.shape`, `distance_map`, `speed_map`) in `Planner`
and the mutable attributes in `PlannerState`.  `on_click` is the handler
of lines 509–544; `compute_and_display_path` (lines 546–634) stores the
computed path and metrics only when planning and the metrics computation
both succeed (the assignments of lines 633–634 come after the metrics
call, so an exception leaves both attributes untouched; rendering code is
state-irrelevant and omitted). -/

/-- Immutable planner inputs (`__init__`, lines 419–433). -/
structure Planner : Type where
  shape : Idx
  distance_map : Idx → ℝ
  speed_map : Idx → ℚ

/-- The mutable attributes of the planner touched by `on_click`. -/
structure PlannerState : Type where
  start_point : Option Coord
  end_point : Option Coord
  computed_path : Option (List Coord)
  computed_metrics : Option (SafetyMetrics ℝ)
  current_slice : ℕ

/-- A matplotlib `button_press_event`: whether it hit the axial axes, and
its (possibly missing) data coordinates. -/
structure ClickEvent : Type where
  inAxial : Bool
  xdata : Option ℚ
  ydata : Option ℚ

/-- Fresh session state (`__init__`): no points, no path, middle slice. -/
def initState (P : Planner) : PlannerState :=
  { start_point := none, end_point := none, computed_path := none,
    computed_metrics := none, current_slice := P.shape.2.2 / 2 }

/-- Python `int(x)` on a float data coordinate: truncation toward 0. -/
def truncQ (q : ℚ) : ℤ :=
  if 0 ≤ q then ⌊q⌋ else ⌈q⌉

/-- `compute_and_display_path` (lines 546–634), restricted to its state
effect: run `plan_path_fmm`; on failure (`path is None`) or on an
exception from planning or from the metrics computation, leave the state
as it is; on success store the path and metrics. -/
noncomputable def compute_and_display_path (P : Planner) (s : PlannerState)
    (sp ep : Coord) : PlannerState :=
  match plan_path_fmm P.shape P.speed_map sp ep with
  | .error _ => s
  | .ok none => s
  | .ok (some pr) =>
    match calculate_safety_metrics P.shape pr.1 P.distance_map with
    | .error _ => s
    | .ok m => { s with computed_path := some pr.1,
                        computed_metrics := some m }

/-- `on_click` (lines 509–544): ignore clicks off the axial axes or with
missing data coordinates or out-of-bounds pixel positions; otherwise the
first click stores the start point, the second stores the end point and
computes the path, and a third click resets both points (leaving
`computed_path` and `computed_metrics` as they are). -/
noncomputable def on_click (P : Planner) (s : PlannerState)
    (e : ClickEvent) : PlannerState :=
  if e.inAxial = false then s
  else
    match e.xdata, e.ydata with
    | none, _ => s
    | some _, none => s
    | some xd, some yd =>
      let x := truncQ xd
      let y := truncQ yd
      let z : ℤ := (s.current_slice : ℤ)
      if ¬ (0 ≤ x ∧ x < (P.shape.1 : ℤ) ∧ 0 ≤ y ∧ y < (P.shape.2.1 : ℤ))
      then s
      else
        match s.start_point with
        | none => { s with start_point := some (x, y, z) }
        | some sp =>
          match s.end_point with
          | none =>
            compute_and_display_path P { s with end_point := some (x, y, z) }
              sp (x, y, z)
          | some _ => { s with start_point := none, end_point := none }

/-! ## Concrete instances used by counterexamples and witnesses -/

/-- A 1×1×1 grid with no obstacle voxel. -/
def gridEmpty : Grid := { shape := (1, 1, 1), val := fun _ => 0 }

/-- A 1×1×1 grid whose single voxel is bone. -/
def gridBone : Grid := { shape := (1, 1, 1), val := fun _ => 1 }

/-- A uniform speed map at the clipped minimum `0.1` — the traversal cost
`create_speed_map` assigns to obstacle voxels. -/
def speedLow : Idx → ℚ := fun _ => 1 / 10

/-- Planner over a 2×2×2 volume with uniform fields. -/
noncomputable def plannerC : Planner :=
  { shape := (2, 2, 2), distance_map := fun _ => 5, speed_map := fun _ => 1 }

/-- First click: axial pixel (0, 0). -/
def click1 : ClickEvent := { inAxial := true, xdata := some 0, ydata := some 0 }

/-- Second click: axial pixel (1, 1). -/
def click2 : ClickEvent := { inAxial := true, xdata := some 1, ydata := some 1 }

/-- Third click: axial pixel (0, 1). -/
def click3 : ClickEvent := { inAxial := true, xdata := some 0, ydata := some 1 }

/-- A session in the fully planned situation: both points selected and a
path stored. -/
def stateFull : PlannerState :=
  { start_point := some (0, 0, 0), end_point := some (1, 1, 1),
    computed_path := some [(1, 1, 1), (0, 0, 0)], computed_metrics := none,
    current_slice := 0 }

/-- Session state after the first click on a fresh session. -/
noncomputable def stateAfter1 : PlannerState :=
  on_click plannerC (initState plannerC) click1

/-- Session state after the second click. -/
noncomputable def stateAfter2 : PlannerState :=
  on_click plannerC stateAfter1 click2

/-- Session state after the third click. -/
noncomputable def stateAfter3 : PlannerState :=
  on_click plannerC stateAfter2 click3

/-! ## Helper lemmas -/

theorem le_foldl_max (l : List ℚ) (a : ℚ) : a ≤ l.foldl max a := by
  induction l generalizing a with
  | nil => exact le_refl a
  | cons x xs ih => exact le_trans (le_max_left a x) (ih (max a x))

theorem mem_le_foldl_max (l : List ℚ) (a x : ℚ) (hx : x ∈ l) :
    x ≤ l.foldl max a := by
  induction l generalizing a with
  | nil => cases hx
  | cons y ys ih =>
    rcases List.mem_cons.mp hx with h | h
    · subst h; exact le_trans (le_max_right a x) (le_foldl_max ys (max a x))
    · exact ih (max a y) h

theorem mem_le_npMax (l : List ℚ) (x : ℚ) (hx : x ∈ l) : x ≤ npMax l := by
  cases l with
  | nil => cases hx
  | cons a as =>
    rcases List.mem_cons.mp hx with h | h
    · subst h; exact le_foldl_max as x
    · exact mem_le_foldl_max as a x h

theorem mem_le_fieldMax (shape : Idx) (f : Idx → ℚ) (v : Idx)
    (hv : v ∈ allCoords shape) : f v ≤ fieldMax shape f :=
  mem_le_npMax _ _ (List.mem_map_of_mem f hv)

theorem npClip_lower (x : ℚ) : 1 / 10 ≤ npClip x (1 / 10) 1 :=
  le_min (by norm_num) (le_max_right x (1 / 10))

theorem npClip_upper (x : ℚ) : npClip x (1 / 10) 1 ≤ 1 :=
  min_le_left 1 (max x (1 / 10))

theorem npClip_mono (x y lo hi : ℚ) (h : x ≤ y) :
    npClip x lo hi ≤ npClip y lo hi :=
  min_le_min (le_refl hi) (max_le_max h (le_refl lo))

theorem foldl_max_map_add (l : List ℚ) (m : ℚ) :
    ∀ a : ℚ, (l.map (fun x => x + m)).foldl max (a + m) = l.foldl max a + m := by
  induction l with
  | nil => intro a; rfl
  | cons x xs ih =>
    intro a
    simp only [List.map_cons, List.foldl_cons]
    rw [max_add_add_right]
    exact ih (max a x)

theorem fieldMax_add (shape : Idx) (d : Idx → ℚ) (m : ℚ)
    (hne : allCoords shape ≠ []) :
    fieldMax shape (fun w => d w + m) = fieldMax shape d + m := by
  unfold fieldMax
  cases h : allCoords shape with
  | nil => exact absurd h hne
  | cons a as =>
    have hmap : (as.map (fun w => d w + m)) =
        (as.map d).map (fun x => x + m) := by
      simp [List.map_map, Function.comp]
    simp only [List.map_cons, npMax, hmap]
    exact foldl_max_map_add (as.map d) m (d a)

theorem fieldMax_pos (shape : Idx) (d : Idx → ℚ) (m : ℚ) (hm : 0 ≤ m)
    (hfree : ∃ v ∈ allCoords shape, 0 < d v) :
    0 < fieldMax shape (fun w => d w + m) := by
  obtain ⟨v0, hv0, hpos⟩ := hfree
  have h1 : d v0 + m ≤ fieldMax shape (fun w => d w + m) :=
    mem_le_fieldMax shape (fun w => d w + m) v0 hv0
  linarith

/-! ## Claim theorems -/

/-- Claim C1: for every clearance field with at least one free voxel and
every margin ≥ 0, the traversal-cost field computed by `create_speed_map`
equals `clamp((clearance + margin) / max(clearance + margin), 0.1, 1.0)`
voxelwise, so every output value lies in `[0.1, 1.0]` and is strictly
positive. -/
theorem create_speed_map_spec (shape : Idx) (d : Idx → ℚ) (margin : ℚ)
    (hm : 0 ≤ margin) (hfree : ∃ v ∈ allCoords shape, 0 < d v) :
    ∀ v : Idx,
      create_speed_map shape d margin v =
        npClip ((d v + margin) / fieldMax shape (fun w => d w + margin))
          (1 / 10) 1 ∧
      1 / 10 ≤ create_speed_map shape d margin v ∧
      create_speed_map shape d margin v ≤ 1 ∧
      0 < create_speed_map shape d margin v := by
  intro v
  refine ⟨rfl, npClip_lower _, npClip_upper _, ?_⟩
  exact lt_of_lt_of_le (by norm_num) (npClip_lower _)

/-- Witness for C1 at a concrete input: a 1×1×1 field of clearance 2 and
margin 0. -/
theorem create_speed_map_spec_witness :
    (0 : ℚ) ≤ 0 ∧ (∃ v ∈ allCoords (1, 1, 1), 0 < (2 : ℚ)) ∧
      (1 / 10 ≤ create_speed_map (1, 1, 1) (fun _ => 2) 0 (0, 0, 0) ∧
        create_speed_map (1, 1, 1) (fun _ => 2) 0 (0, 0, 0) ≤ 1 ∧
        0 < create_speed_map (1, 1, 1) (fun _ => 2) 0 (0, 0, 0)) := by
  have hmem : (0, 0, 0) ∈ allCoords (1, 1, 1) := by
    simp [allCoords]
  have h := create_speed_map_spec (1, 1, 1) (fun _ => 2) 0 (le_refl 0)
    ⟨(0, 0, 0), hmem, by norm_num⟩ (0, 0, 0)
  exact ⟨le_refl 0, ⟨(0, 0, 0), hmem, by norm_num⟩, h.2.1, h.2.2.1, h.2.2.2⟩

/-- Claim C8: the traversal-cost computation is monotone: within one
output field a voxel with larger clearance never receives a smaller cost
value, and for fixed clearance increasing the margin never decreases the
cost at any voxel. -/
theorem create_speed_map_monotone (shape : Idx) (d : Idx → ℚ)
    (margin margin' : ℚ) (hm : 0 ≤ margin) (hmm : margin ≤ margin')
    (hfree : ∃ v ∈ allCoords shape, 0 < d v) :
    (∀ v w : Idx, d v ≤ d w →
      create_speed_map shape d margin v ≤ create_speed_map shape d margin w) ∧
    (∀ v ∈ allCoords shape,
      create_speed_map shape d margin v ≤ create_speed_map shape d margin' v) := by
  have hne : allCoords shape ≠ [] := by
    obtain ⟨v0, hv0, _⟩ := hfree
    exact List.ne_nil_of_mem hv0
  have hMpos : 0 < fieldMax shape d := by
    obtain ⟨v0, hv0, hpos⟩ := hfree
    exact lt_of_lt_of_le hpos (mem_le_fieldMax shape d v0 hv0)
  constructor
  · intro v w hvw
    have hmx : 0 < fieldMax shape (fun u => d u + margin) :=
      fieldMax_pos shape d margin hm hfree
    unfold create_speed_map
    refine npClip_mono _ _ _ _ ?_
    gcongr
  · intro v hv
    have hvM : d v ≤ fieldMax shape d := mem_le_fieldMax shape d v hv
    unfold create_speed_map
    rw [fieldMax_add shape d margin hne, fieldMax_add shape d margin' hne]
    refine npClip_mono _ _ _ _ ?_
    rw [div_le_div_iff₀ (by linarith) (by linarith)]
    nlinarith [mul_le_mul_of_nonneg_right hvM (sub_nonneg.mpr hmm)]

/-- Witness for C8 at a concrete input: clearances 0 and 2 on a 1×1×2
grid, margins 0 ≤ 1. -/
theorem create_speed_map_monotone_witness :
    (0 : ℚ) ≤ 0 ∧ (0 : ℚ) ≤ 1 ∧
      (∃ v ∈ allCoords (1, 1, 2), 0 < (fun u : Idx => (2 * u.2.2 : ℚ)) v) ∧
      create_speed_map (1, 1, 2) (fun u => (2 * u.2.2 : ℚ)) 0 (0, 0, 0) ≤
        create_speed_map (1, 1, 2) (fun u => (2 * u.2.2 : ℚ)) 0 (0, 0, 1) ∧
      create_speed_map (1, 1, 2) (fun u => (2 * u.2.2 : ℚ)) 0 (0, 0, 1) ≤
        create_speed_map (1, 1, 2) (fun u => (2 * u.2.2 : ℚ)) 1 (0, 0, 1) := by
  have hmem : (0, 0, 1) ∈ allCoords (1, 1, 2) := by
    simp [allCoords]
  have hfree : ∃ v ∈ allCoords (1, 1, 2), 0 < (fun u : Idx => (2 * u.2.2 : ℚ)) v :=
    ⟨(0, 0, 1), hmem, by norm_num⟩
  have h := create_speed_map_monotone (1, 1, 2) (fun u => (2 * u.2.2 : ℚ))
    0 1 (le_refl 0) (by norm_num) hfree
  exact ⟨le_refl 0, by norm_num, hfree,
    h.1 (0, 0, 0) (0, 0, 1) (by norm_num), h.2 (0, 0, 1) hmem⟩

theorem foldr_min_le (f : Idx → ℕ) (l : List Idx) (init : ℕ) (w : Idx)
    (hw : w ∈ l) :
    l.foldr (fun u acc => min (f u) acc) init ≤ f w := by
  induction l with
  | nil => cases hw
  | cons x xs ih =>
    rcases List.mem_cons.mp hw with h | h
    · subst h; exact min_le_left _ _
    · exact le_trans (min_le_right _ _) (ih h)

/-- Claim C7: for every grid with at least one obstacle voxel, the
clearance field assigns exactly 0 to every obstacle voxel, and every
clearance value is non-negative. -/
theorem distance_map_obstacle_zero (g : Grid)
    (hobs : ∃ w ∈ allCoords g.shape, 0 < g.val w) :
    (∀ v ∈ allCoords g.shape, 0 < g.val v → distance_map g v = 0) ∧
    (∀ v : Idx, 0 ≤ distance_map g v) := by
  constructor
  · intro v hv hval
    have hmem : v ∈ obstacleCoords g := by
      unfold obstacleCoords
      rw [List.mem_filter]
      exact ⟨hv, by simpa using hval⟩
    have hle := foldr_min_le (sqDist v) (obstacleCoords g)
      (edtUpperBound g.shape) v hmem
    have hself : sqDist v v = 0 := by
      unfold sqDist; simp
    have h0 : distance_transform_sq g v = 0 := by
      unfold distance_transform_sq
      omega
    unfold distance_map
    rw [h0]
    simp
  · intro v
    exact Real.sqrt_nonneg _

/-- Witness for C7: a 1×1×1 all-bone grid. -/
theorem distance_map_obstacle_zero_witness :
    (0 : ℚ) < gridBone.val (0, 0, 0) ∧
      distance_map gridBone (0, 0, 0) = 0 ∧
      0 ≤ distance_map gridBone (4, 5, 6) := by
  have hmem : (0, 0, 0) ∈ allCoords gridBone.shape := by
    simp [allCoords, gridBone]
  have hval : (0 : ℚ) < gridBone.val (0, 0, 0) := by norm_num [gridBone]
  have h := distance_map_obstacle_zero gridBone ⟨(0, 0, 0), hmem, hval⟩
  exact ⟨hval, h.1 (0, 0, 0) hmem hval, h.2 _⟩

/-- Counterexample for claim C3: a grid with no obstacle voxel at all,
on which the clearance computation does not fail with
`EmptyObstacleSet` — it returns a distance field. -/
theorem compute_distance_transform_no_empty_failure :
    (∀ v ∈ allCoords gridEmpty.shape, ¬ 0 < gridEmpty.val v) ∧
    compute_distance_transformE gridEmpty ≠
      Except.error PlanError.EmptyObstacleSet := by
  constructor
  · intro v _
    norm_num [gridEmpty]
  · intro h
    simp [compute_distance_transformE] at h

/-- Claim C3 amended: `compute_distance_transform` performs no
empty-obstacle check; on a grid with no obstacle voxels it still returns
a distance field (every entry being the scan's initialization value)
rather than failing with a typed `EmptyObstacleSet` error. -/
theorem compute_distance_transform_empty_ok (g : Grid)
    (h : ∀ v ∈ allCoords g.shape, ¬ 0 < g.val v) :
    compute_distance_transformE g = .ok (distance_map g) ∧
    ∀ v : Idx, distance_map g v = Real.sqrt (edtUpperBound g.shape) := by
  refine ⟨rfl, ?_⟩
  intro v
  have hnil : obstacleCoords g = [] := by
    unfold obstacleCoords
    rw [List.filter_eq_nil]
    intro a ha
    simpa using h a ha
  simp [distance_map, distance_transform_sq, hnil]

/-- Witness for the amended C3 at the concrete obstacle-free grid. -/
theorem compute_distance_transform_empty_ok_witness :
    (∀ v ∈ allCoords gridEmpty.shape, ¬ 0 < gridEmpty.val v) ∧
    compute_distance_transformE gridEmpty = .ok (distance_map gridEmpty) ∧
    distance_map gridEmpty (0, 0, 0) =
      Real.sqrt (edtUpperBound gridEmpty.shape) := by
  have hh : ∀ v ∈ allCoords gridEmpty.shape, ¬ 0 < gridEmpty.val v := by
    intro v _
    norm_num [gridEmpty]
  have h := compute_distance_transform_empty_ok gridEmpty hh
  exact ⟨hh, h.1, h.2 (0, 0, 0)⟩

theorem foldl_min_le_init {α : Type} [LinearOrder α] (xs : List α) :
    ∀ a : α, xs.foldl min a ≤ a := by
  induction xs with
  | nil => intro a; exact le_refl a
  | cons x xs ih =>
    intro a
    exact le_trans (ih (min a x)) (min_le_left a x)

theorem foldl_min_le_mem {α : Type} [LinearOrder α] (xs : List α) :
    ∀ a x : α, x ∈ xs → xs.foldl min a ≤ x := by
  induction xs with
  | nil => intro a x hx; cases hx
  | cons y ys ih =>
    intro a x hx
    simp only [List.foldl_cons]
    rcases List.mem_cons.mp hx with h | h
    · subst h
      exact le_trans (foldl_min_le_init ys (min a x)) (min_le_right a x)
    · exact ih (min a y) x h

theorem foldl_min_mem {α : Type} [LinearOrder α] (xs : List α) :
    ∀ a : α, xs.foldl min a ∈ a :: xs := by
  induction xs with
  | nil => intro a; simp
  | cons x xs ih =>
    intro a
    simp only [List.foldl_cons]
    rcases List.mem_cons.mp (ih (min a x)) with h1 | h1
    · rw [h1]
      rcases min_choice a x with h2 | h2 <;> rw [h2] <;> simp
    · exact List.mem_cons_of_mem a (List.mem_cons_of_mem x h1)

theorem mem_sampleClearances {α : Type} (shape : Idx) (field : Idx → α)
    (path : List Coord) (a : α) :
    a ∈ sampleClearances shape field path ↔
      ∃ p ∈ path, inB shape p ∧ a = field (toIdx p) := by
  unfold sampleClearances
  simp only [List.mem_filterMap]
  constructor
  · rintro ⟨p, hp, hsome⟩
    by_cases h : inB shape p
    · simp only [h, if_pos, Option.some.injEq] at hsome
      exact ⟨p, hp, h, hsome.symm⟩
    · simp [h] at hsome
  · rintro ⟨p, hp, hB, rfl⟩
    exact ⟨p, hp, by simp [hB]⟩

/-- Claim C6: the safety evaluation samples clearance by voxel lookup at
each (integer) path point, excludes points outside the grid from the
statistics, and its verdict is `safe` iff the minimum sampled clearance
is at least the threshold 3. -/
theorem calculate_safety_metrics_spec {α : Type} [LinearOrderedField α]
    (shape : Idx) (path : List Coord) (field : Idx → α)
    (h : ∃ p ∈ path, inB shape p) :
    ∃ m, calculate_safety_metrics shape path field = .ok m ∧
      (m.safe = true ↔ 3 ≤ m.min_clearance) ∧
      (∃ p ∈ path, inB shape p ∧ m.min_clearance = field (toIdx p)) ∧
      (∀ p ∈ path, inB shape p → m.min_clearance ≤ field (toIdx p)) ∧
      m.path_length = path.length := by
  obtain ⟨p0, hp0, hB0⟩ := h
  have hmem0 : field (toIdx p0) ∈ sampleClearances shape field path :=
    (mem_sampleClearances shape field path _).mpr ⟨p0, hp0, hB0, rfl⟩
  cases hs : sampleClearances shape field path with
  | nil =>
    rw [hs] at hmem0
    cases hmem0
  | cons x xs =>
    refine ⟨{ min_clearance := xs.foldl min x, max_clearance := xs.foldl max x,
              avg_clearance := (x :: xs).sum / ((x :: xs).length : α),
              path_length := path.length,
              safe := decide (3 ≤ xs.foldl min x) }, ?_, ?_, ?_, ?_, rfl⟩
    · unfold calculate_safety_metrics
      rw [hs]
    · simp
    · have hm : xs.foldl min x ∈ sampleClearances shape field path := by
        rw [hs]
        exact foldl_min_mem xs x
      exact (mem_sampleClearances shape field path _).mp hm
    · intro p hp hB
      have hmemp : field (toIdx p) ∈ sampleClearances shape field path :=
        (mem_sampleClearances shape field path _).mpr ⟨p, hp, hB, rfl⟩
      rw [hs] at hmemp
      rcases List.mem_cons.mp hmemp with h1 | h1
      · rw [← h1] at *
        exact foldl_min_le_init xs _
      · exact foldl_min_le_mem xs x _ h1

/-- Witness for C6: a two-point path with one point inside a 1×1×1 grid
and one far outside, over a constant clearance field of 4. -/
theorem calculate_safety_metrics_spec_witness :
    (∃ p ∈ [((0 : ℤ), (0 : ℤ), (0 : ℤ)), (5, 5, 5)], inB (1, 1, 1) p) ∧
    ∃ m, calculate_safety_metrics (1, 1, 1)
        [((0 : ℤ), (0 : ℤ), (0 : ℤ)), (5, 5, 5)] (fun _ => (4 : ℚ)) = .ok m ∧
      (m.safe = true ↔ 3 ≤ m.min_clearance) ∧
      (∃ p ∈ [((0 : ℤ), (0 : ℤ), (0 : ℤ)), (5, 5, 5)], inB (1, 1, 1) p ∧
        m.min_clearance = 4) ∧
      (∀ p ∈ [((0 : ℤ), (0 : ℤ), (0 : ℤ)), (5, 5, 5)], inB (1, 1, 1) p →
        m.min_clearance ≤ 4) ∧
      m.path_length = 2 := by
  have hex : ∃ p ∈ [((0 : ℤ), (0 : ℤ), (0 : ℤ)), (5, 5, 5)], inB (1, 1, 1) p :=
    ⟨(0, 0, 0), by simp, by decide⟩
  have h := calculate_safety_metrics_spec (1, 1, 1)
    [((0 : ℤ), (0 : ℤ), (0 : ℤ)), (5, 5, 5)] (fun _ => (4 : ℚ)) hex
  exact ⟨hex, h⟩

/-- Claim C10: when every path point lies outside the grid, no clearance
sample is collected and the safety evaluation fails (numpy's empty-array
reduction error) instead of returning a report. -/
theorem calculate_safety_metrics_all_outside {α : Type} [LinearOrderedField α]
    (shape : Idx) (path : List Coord) (field : Idx → α)
    (h : ∀ p ∈ path, ¬ inB shape p) :
    calculate_safety_metrics shape path field = .error .ValueError := by
  have hnil : sampleClearances shape field path = [] := by
    unfold sampleClearances
    rw [List.filterMap_eq_nil]
    intro p hp
    simp [h p hp]
  unfold calculate_safety_metrics
  rw [hnil]

/-- Witness for C10: a single-point path at (-1, 0, 0), outside a 2×2×2
grid. -/
theorem calculate_safety_metrics_all_outside_witness :
    (∀ p ∈ [((-1 : ℤ), (0 : ℤ), (0 : ℤ))], ¬ inB (2, 2, 2) p) ∧
    calculate_safety_metrics (2, 2, 2) [((-1 : ℤ), (0 : ℤ), (0 : ℤ))]
      (fun _ => (0 : ℚ)) = .error .ValueError :=
  ⟨by decide, calculate_safety_metrics_all_outside (2, 2, 2) _ _ (by decide)⟩

theorem trace_loop_length (shape : Idx) (T : Idx → ℝ) (sp : Coord) :
    ∀ (fuel : ℕ) (cur : ℝ × ℝ × ℝ) (acc : List Coord),
      (trace_loop shape T sp fuel cur acc).length ≤ acc.length + fuel := by
  intro fuel
  induction fuel with
  | zero =>
    intro cur acc
    simp [trace_loop]
  | succ n ih =>
    intro cur acc
    rw [trace_loop]
    dsimp only
    split
    · omega
    · split
      · omega
      · split
        · simp only [List.length_append, List.length_singleton]
          omega
        · refine le_trans (ih _ _) ?_
          simp only [List.length_append, List.length_singleton]
          omega

/-- Claim C9: for every arrival-time field, source and target, the
gradient-descent path extraction terminates (it is a total function of
its inputs, stopping at the source tolerance, a vanishing gradient, the
grid boundary, or the iteration budget), and the returned path has at
most `max_iterations + 1` points. -/
theorem plan_path_trace_bounded (shape : Idx) (T : Idx → ℝ) (sp ep : Coord) :
    (plan_path_trace shape T sp ep).length ≤ max_iterations + 1 := by
  have h := trace_loop_length shape T sp max_iterations
    ((ep.1 : ℝ), (ep.2.1 : ℝ), (ep.2.2 : ℝ)) [ep]
  simpa [plan_path_trace, Nat.add_comm] using h

theorem exceptOkSome_ne_error {ε α : Type} (x : Except ε (Option α))
    (h : exceptOkSome x = true) (e : ε) : x ≠ .error e := by
  intro hx
  rw [hx] at h
  simp [exceptOkSome] at h

theorem npIndex_ok_lt (n : ℕ) (i : ℤ) (j : ℕ) (h : npIndex n i = .ok j) :
    j < n := by
  unfold npIndex at h
  split at h
  · injection h with h1
    omega
  · split at h
    · injection h with h1
      omega
    · cases h

theorem npIndex_error_eq (n : ℕ) (i : ℤ) (e : PlanError)
    (h : npIndex n i = .error e) : e = PlanError.IndexError := by
  unfold npIndex at h
  split at h
  · cases h
  · split at h
    · cases h
    · injection h with h1
      exact h1.symm

theorem mem_allCoords (shape : Idx) (v : Idx) :
    v ∈ allCoords shape ↔
      v.1 < shape.1 ∧ v.2.1 < shape.2.1 ∧ v.2.2 < shape.2.2 := by
  rcases v with ⟨i, j, k⟩
  simp only [allCoords, List.mem_flatMap, List.mem_map, List.mem_range]
  constructor
  · rintro ⟨a, ha, b, hb, c, hc, habc⟩
    obtain ⟨rfl, rfl, rfl⟩ : a = i ∧ b = j ∧ c = k := by
      simpa [Prod.ext_iff] using habc
    exact ⟨ha, hb, hc⟩
  · rintro ⟨h1, h2, h3⟩
    exact ⟨i, h1, j, h2, k, h3, rfl⟩

/-- Counterexample for claim C4: with a uniform traversal cost of `0.1`
(the clipped minimum — exactly the cost `create_speed_map` assigns to
obstacle voxels) on a 2×2×2 grid, the solve accepts the in-bounds source
`(0,0,0)` whose cost is at the obstacle level and produces an
arrival-time field (it does not fail with `SourceInObstacle`), and it
also accepts the out-of-bounds source `(-1,0,0)` — numpy wraps the
negative index — again producing a field rather than failing with
`SourceOutOfBounds`. -/
theorem fmm_solve_no_validation_cex :
    speedLow (0, 0, 0) = 1 / 10 ∧
    exceptOkSome (fmm_solve (2, 2, 2) speedLow ((0 : ℤ), 0, 0)) = true ∧
    fmm_solve (2, 2, 2) speedLow ((0 : ℤ), 0, 0) ≠
      Except.error PlanError.SourceInObstacle ∧
    ¬ inB (2, 2, 2) ((-1 : ℤ), 0, 0) ∧
    exceptOkSome (fmm_solve (2, 2, 2) speedLow ((-1 : ℤ), 0, 0)) = true ∧
    fmm_solve (2, 2, 2) speedLow ((-1 : ℤ), 0, 0) ≠
      Except.error PlanError.SourceOutOfBounds := by
  have h1 : exceptOkSome (fmm_solve (2, 2, 2) speedLow ((0 : ℤ), 0, 0)) =
      true := by rfl
  have h2 : exceptOkSome (fmm_solve (2, 2, 2) speedLow ((-1 : ℤ), 0, 0)) =
      true := by rfl
  exact ⟨rfl, h1, exceptOkSome_ne_error _ h1 _, by decide, h2,
    exceptOkSome_ne_error _ h2 _⟩

theorem shape_facts (n1 n2 n3 : ℕ) (h : 2 ≤ n1 * n2 * n3) :
    1 ≤ n1 ∧ 1 ≤ n2 ∧ 1 ≤ n3 ∧ (2 ≤ n1 ∨ 2 ≤ n2 ∨ 2 ≤ n3) := by
  have hn1 : 1 ≤ n1 := by
    rcases Nat.eq_zero_or_pos n1 with h0 | h0
    · rw [h0] at h; simp at h
    · exact h0
  have hn2 : 1 ≤ n2 := by
    rcases Nat.eq_zero_or_pos n2 with h0 | h0
    · rw [h0] at h; simp at h
    · exact h0
  have hn3 : 1 ≤ n3 := by
    rcases Nat.eq_zero_or_pos n3 with h0 | h0
    · rw [h0] at h; simp at h
    · exact h0
  refine ⟨hn1, hn2, hn3, ?_⟩
  by_contra hc
  push_neg at hc
  obtain ⟨hc1, hc2, hc3⟩ := hc
  have : n1 * n2 * n3 ≤ 1 := by
    calc n1 * n2 * n3 ≤ 1 * 1 * 1 :=
          Nat.mul_le_mul (Nat.mul_le_mul (by omega) (by omega)) (by omega)
      _ = 1 := by norm_num
  omega

theorem mem_allCoords_of_lt (shape : Idx) (a b c : ℕ) (h1 : a < shape.1)
    (h2 : b < shape.2.1) (h3 : c < shape.2.2) :
    (a, b, c) ∈ allCoords shape :=
  (mem_allCoords shape (a, b, c)).mpr ⟨h1, h2, h3⟩

/-- On a grid with at least two voxels, a voxel distinct from any given
one exists. -/
theorem exists_other_coord (shape : Idx) (w : Idx)
    (hvol : 2 ≤ shape.1 * shape.2.1 * shape.2.2) :
    ∃ v ∈ allCoords shape, v ≠ w := by
  obtain ⟨h1, h2, h3, hor⟩ := shape_facts shape.1 shape.2.1 shape.2.2 hvol
  by_cases hw : w = (0, 0, 0)
  · subst hw
    rcases hor with h | h | h
    · exact ⟨(1, 0, 0),
        mem_allCoords_of_lt shape 1 0 0 (by omega) (by omega) (by omega),
        by simp⟩
    · exact ⟨(0, 1, 0),
        mem_allCoords_of_lt shape 0 1 0 (by omega) (by omega) (by omega),
        by simp⟩
    · exact ⟨(0, 0, 1),
        mem_allCoords_of_lt shape 0 0 1 (by omega) (by omega) (by omega),
        by simp⟩
  · exact ⟨(0, 0, 0),
      mem_allCoords_of_lt shape 0 0 0 (by omega) (by omega) (by omega),
      fun hc => hw hc.symm⟩

theorem npIndex3_ok_mem (shape : Idx) (p : Coord) (w : Idx)
    (h : npIndex3 shape p = .ok w) : w ∈ allCoords shape := by
  unfold npIndex3 at h
  cases h1 : npIndex shape.1 p.1 with
  | error e => rw [h1] at h; cases h
  | ok i =>
    rw [h1] at h
    cases h2 : npIndex shape.2.1 p.2.1 with
    | error e => rw [h2] at h; cases h
    | ok j =>
      rw [h2] at h
      cases h3 : npIndex shape.2.2 p.2.2 with
      | error e => rw [h3] at h; cases h
      | ok k =>
        rw [h3] at h
        simp only [bind, Except.bind, pure, Except.pure, Except.ok.injEq] at h
        subst h
        exact (mem_allCoords _ _).mpr ⟨npIndex_ok_lt _ _ _ h1,
          npIndex_ok_lt _ _ _ h2, npIndex_ok_lt _ _ _ h3⟩

theorem npIndex3_error_eq (shape : Idx) (p : Coord) (e : PlanError)
    (h : npIndex3 shape p = .error e) : e = PlanError.IndexError := by
  unfold npIndex3 at h
  cases h1 : npIndex shape.1 p.1 with
  | error e1 =>
    rw [h1] at h
    simp only [bind, Except.bind, Except.error.injEq] at h
    subst h
    exact npIndex_error_eq _ _ _ h1
  | ok i =>
    rw [h1] at h
    cases h2 : npIndex shape.2.1 p.2.1 with
    | error e2 =>
      rw [h2] at h
      simp only [bind, Except.bind, Except.error.injEq] at h
      subst h
      exact npIndex_error_eq _ _ _ h2
    | ok j =>
      rw [h2] at h
      cases h3 : npIndex shape.2.2 p.2.2 with
      | error e3 =>
        rw [h3] at h
        simp only [bind, Except.bind, Except.error.injEq] at h
        subst h
        exact npIndex_error_eq _ _ _ h3
      | ok k =>
        rw [h3] at h
        simp only [bind, Except.bind, pure, Except.pure] at h
        cases h

/-- Claim C4 amended: `plan_path_fmm` performs no source validation.
Every source whose numpy-indexable coordinates lie in `[-nᵢ, nᵢ)` is
accepted (negative coordinates wrap) and — on any grid with at least two
voxels — an arrival-time field is produced, even when the source voxel's
traversal cost is at the obstacle level; a source coordinate outside
`[-nᵢ, nᵢ)` raises numpy's untyped `IndexError` instead of a typed
`SourceOutOfBounds`. -/
theorem fmm_solve_no_validation (shape : Idx) (speed : Idx → ℚ)
    (start : Coord) (hvol : 2 ≤ shape.1 * shape.2.1 * shape.2.2) :
    ((∃ w, npIndex3 shape start = .ok w) →
      ∃ T, fmm_solve shape speed start = .ok (some T)) ∧
    ((¬ ∃ w, npIndex3 shape start = .ok w) →
      fmm_solve shape speed start = .error .IndexError) := by
  constructor
  · rintro ⟨w, hw⟩
    have hwmem : w ∈ allCoords shape := npIndex3_ok_mem shape start w hw
    have hfind : ∃ s, (allCoords shape).find?
        (fun v => decide (phiOf w v < 0)) = some s := by
      have : ((allCoords shape).find?
          (fun v => decide (phiOf w v < 0))).isSome := by
        rw [List.find?_isSome]
        refine ⟨w, hwmem, ?_⟩
        simp [phiOf]
      exact Option.isSome_iff_exists.mp this
    obtain ⟨s, hs⟩ := hfind
    have hany : (allCoords shape).any (fun v => decide (0 < phiOf w v)) =
        true := by
      rw [List.any_eq_true]
      obtain ⟨v, hvmem, hvne⟩ := exists_other_coord shape w hvol
      refine ⟨v, hvmem, ?_⟩
      simp [phiOf, hvne]
    refine ⟨fmmValues shape speed s, ?_⟩
    unfold fmm_solve
    rw [hw]
    dsimp only
    unfold skfmm_travel_time
    rw [hs, hany]
  · intro hne
    cases hw : npIndex3 shape start with
    | ok w => exact absurd ⟨w, hw⟩ hne
    | error e =>
      have he : e = PlanError.IndexError := npIndex3_error_eq shape start e hw
      subst he
      unfold fmm_solve
      rw [hw]

/-- Witness for the amended C4: the wrapped source `(-1,0,0)` on a 2×2×2
grid produces a field; the raw source `(7,0,0)` raises `IndexError`. -/
theorem fmm_solve_no_validation_witness :
    2 ≤ 2 * 2 * 2 ∧
    (∃ T, fmm_solve (2, 2, 2) speedLow ((-1 : ℤ), 0, 0) = .ok (some T)) ∧
    fmm_solve (2, 2, 2) speedLow ((7 : ℤ), 0, 0) = .error .IndexError := by
  have hvol : 2 ≤ 2 * 2 * 2 := by norm_num
  have h7 : npIndex3 (2, 2, 2) ((7 : ℤ), 0, 0) = .error .IndexError := by rfl
  refine ⟨hvol, ?_, ?_⟩
  · exact (fmm_solve_no_validation (2, 2, 2) speedLow ((-1 : ℤ), 0, 0) hvol).1
      ⟨(1, 0, 0), by rfl⟩
  · refine (fmm_solve_no_validation (2, 2, 2) speedLow ((7 : ℤ), 0, 0) hvol).2 ?_
    rintro ⟨w, hw⟩
    rw [h7] at hw
    cases hw

/-- The reset branch of `on_click`: a valid axial click while both points
are set clears exactly the two point attributes. -/
theorem on_click_reset_helper (P : Planner) (s : PlannerState)
    (e : ClickEvent) (xd yd : ℚ) (hax : e.inAxial = true)
    (hx : e.xdata = some xd) (hy : e.ydata = some yd)
    (hbnd : 0 ≤ truncQ xd ∧ truncQ xd < (P.shape.1 : ℤ) ∧
      0 ≤ truncQ yd ∧ truncQ yd < (P.shape.2.1 : ℤ))
    (sp ep : Coord) (hs : s.start_point = some sp)
    (he : s.end_point = some ep) :
    on_click P s e = { s with start_point := none, end_point := none } := by
  unfold on_click
  rw [hax, hx, hy]
  dsimp only
  rw [if_neg (not_not_intro hbnd), hs, he]
  rfl

/-- Counterexample for claim C2: three valid point-selection clicks on a
fresh session.  After the second click the session stores source
`(0,0,1)` and target `(1,1,1)`; the third click is not ignored — it
clears both stored points instead of leaving the planned session
unchanged. -/
theorem on_click_third_not_ignored :
    stateAfter2.start_point = some (0, 0, 1) ∧
    stateAfter2.end_point = some (1, 1, 1) ∧
    stateAfter3.start_point = none ∧
    stateAfter3.end_point = none := by
  have h2 : stateAfter2 = compute_and_display_path plannerC
      { start_point := some (0, 0, 1), end_point := some (1, 1, 1),
        computed_path := none, computed_metrics := none, current_slice := 1 }
      (0, 0, 1) (1, 1, 1) := rfl
  have hse : stateAfter2.start_point = some (0, 0, 1) ∧
      stateAfter2.end_point = some (1, 1, 1) := by
    rw [h2]
    unfold compute_and_display_path
    cases hp : plan_path_fmm plannerC.shape plannerC.speed_map (0, 0, 1)
        (1, 1, 1) with
    | error e => exact ⟨rfl, rfl⟩
    | ok o =>
      cases o with
      | none => exact ⟨rfl, rfl⟩
      | some pr =>
        dsimp only
        cases hm : calculate_safety_metrics plannerC.shape pr.1
            plannerC.distance_map with
        | error e => exact ⟨rfl, rfl⟩
        | ok m => exact ⟨rfl, rfl⟩
  have h3 := on_click_reset_helper plannerC stateAfter2 click3 0 1 rfl rfl rfl
    (by refine ⟨?_, ?_, ?_, ?_⟩ <;> decide) (0, 0, 1) (1, 1, 1) hse.1 hse.2
  refine ⟨hse.1, hse.2, ?_, ?_⟩
  · show (on_click plannerC stateAfter2 click3).start_point = none
    rw [h3]
  · show (on_click plannerC stateAfter2 click3).end_point = none
    rw [h3]

/-- Claim C2 amended: in the code the reset is the implicit third-click
branch, not a separate event: when both points are set, a further valid
point-selection click clears the stored source and target (returning the
point selection to the empty state) while leaving the previously computed
path and report fields unchanged. -/
theorem on_click_third_resets (P : Planner) (s : PlannerState)
    (e : ClickEvent) (xd yd : ℚ) (hax : e.inAxial = true)
    (hx : e.xdata = some xd) (hy : e.ydata = some yd)
    (hbnd : 0 ≤ truncQ xd ∧ truncQ xd < (P.shape.1 : ℤ) ∧
      0 ≤ truncQ yd ∧ truncQ yd < (P.shape.2.1 : ℤ))
    (sp ep : Coord) (hs : s.start_point = some sp)
    (he : s.end_point = some ep) :
    (on_click P s e).start_point = none ∧
    (on_click P s e).end_point = none ∧
    (on_click P s e).computed_path = s.computed_path ∧
    (on_click P s e).computed_metrics = s.computed_metrics := by
  rw [on_click_reset_helper P s e xd yd hax hx hy hbnd sp ep hs he]
  exact ⟨rfl, rfl, rfl, rfl⟩

/-- Witness for the amended C2: a fully planned session and a valid
click at pixel (0, 0). -/
theorem on_click_third_resets_witness :
    click1.inAxial = true ∧ click1.xdata = some 0 ∧ click1.ydata = some 0 ∧
    stateFull.start_point = some (0, 0, 0) ∧
    stateFull.end_point = some (1, 1, 1) ∧
    (on_click plannerC stateFull click1).start_point = none ∧
    (on_click plannerC stateFull click1).end_point = none ∧
    (on_click plannerC stateFull click1).computed_path =
      some [(1, 1, 1), (0, 0, 0)] ∧
    (on_click plannerC stateFull click1).computed_metrics = none := by
  have h := on_click_third_resets plannerC stateFull click1 0 0 rfl rfl rfl
    (by refine ⟨?_, ?_, ?_, ?_⟩ <;> decide) (0, 0, 0) (1, 1, 1) rfl rfl
  exact ⟨rfl, rfl, rfl, rfl, rfl, h.1, h.2.1, h.2.2.1, h.2.2.2⟩

end SegToPath
